import Mathlib

/-!
Shallow embedding of `src/task_10.py`, a command-line contact manager.

Python strings are modelled as lists of characters (`Str`), Python
exceptions as the inductive `PyExc`, and fallible Python code as values of
`PyResult`.  In-place mutation of the address book is modelled by explicit
state passing: every command handler returns the updated book together
with its result, and a handler that raises still returns the book state at
the moment the exception escaped (Python mutations performed before the
raise survive).
-/

/-- Python strings, modelled as lists of Unicode code points. -/
abbrev Str := List Char

/-- Embed a Lean string literal as a Python string value. -/
def str (s : String) : Str := s.data

/-- The apostrophe character (used in the show-birthday message). -/
def apos : Char := Char.ofNat 39

/-- The exceptions that the program can raise, mirroring the `except`
clauses of `input_error` in `src/task_10.py`: `ValueError` (carrying its
message), `KeyError`, `IndexError`, and a catch-all for any other
`Exception`. -/
inductive PyExc where
  | valueError (msg : Str)
  | keyError
  | indexError
  | otherError (msg : Str)
  deriving DecidableEq

/-- Result of running a piece of Python code that may raise. -/
inductive PyResult (α : Type) where
  | ok (val : α)
  | exn (e : PyExc)
  deriving DecidableEq

/-- Whether a `PyResult` is a normal (non-raising) result. -/
def PyResult.isOk {α : Type} : PyResult α → Bool
  | .ok _ => true
  | .exn _ => false

/-- ASCII decimal digit test (`0`-`9`); this is what the `\d` class of the
regexes compiled by CPython `_strptime` matches on the Latin-1 inputs this
development works with. -/
def isAsciiDigit (c : Char) : Bool := decide (48 ≤ c.toNat ∧ c.toNat ≤ 57)

/-- ASCII digit `1`-`9`. -/
def isDigit19 (c : Char) : Bool := decide (49 ≤ c.toNat ∧ c.toNat ≤ 57)

/-- Numeric value of an ASCII digit character. -/
def dval (c : Char) : Nat := c.toNat - 48

/-- Modelled from CPython `str.isdigit` on a single character: true for
characters of Unicode `Numeric_Type` `Decimal` or `Digit`.  The model is
exact on the code points below `U+0100`, where those characters are the
ASCII digits `0`-`9` and the superscripts `¹` (U+00B9), `²` (U+00B2) and
`³` (U+00B3); code points above `U+00FF` are mapped to `false` (none are
used anywhere in this development). -/
def pyIsdigitChar (c : Char) : Bool :=
  isAsciiDigit c || c.toNat == 0xB9 || c.toNat == 0xB2 || c.toNat == 0xB3

/-- CPython `str.isdigit`: every character is a digit and the string is
non-empty. -/
def pyIsdigitStr (s : Str) : Bool := !(s.isEmpty) && s.all pyIsdigitChar

/-- The decimal digit characters, for rendering numbers. -/
def digitChar : Nat → Char
  | 0 => '0' | 1 => '1' | 2 => '2' | 3 => '3' | 4 => '4'
  | 5 => '5' | 6 => '6' | 7 => '7' | 8 => '8' | _ => '9'

/-- Decimal rendering of a natural number (fuel-based so that it reduces
in the kernel; the fuel `n + 1` always suffices). -/
def natStrAux : Nat → Nat → Str
  | 0, _ => []
  | fuel + 1, n =>
    if n < 10 then [digitChar n]
    else natStrAux fuel (n / 10) ++ [digitChar (n % 10)]

/-- Decimal rendering of a natural number (Python `str(i)` / `%Y`). -/
def natStr (n : Nat) : Str := natStrAux (n + 1) n

/-- A calendar date, as stored by Python `datetime.date`:
year, month, day. -/
structure Date where
  year : Nat
  month : Nat
  day : Nat
  deriving DecidableEq

/-- Gregorian leap-year rule, as used by `datetime.date`. -/
def isLeap (y : Nat) : Bool := y % 4 == 0 && (y % 100 != 0 || y % 400 == 0)

/-- Length of a month, as used by `datetime.date` validity checks. -/
def daysInMonth (y m : Nat) : Nat :=
  match m with
  | 2 => if isLeap y then 29 else 28
  | 4 => 30
  | 6 => 30
  | 9 => 30
  | 11 => 30
  | _ => 31

/-- Validity of a `Date` value, matching the constraints `datetime.date`
enforces at construction (`MINYEAR = 1`, `MAXYEAR = 9999`). -/
def validDate (d : Date) : Bool :=
  decide (1 ≤ d.year ∧ d.year ≤ 9999 ∧ 1 ≤ d.month ∧ d.month ≤ 12 ∧
    1 ≤ d.day ∧ d.day ≤ daysInMonth d.year d.month)

/-- Python `date` strict comparison `a < b` (lexicographic on
year, month, day, which is how `datetime.date` compares). -/
def dateLtB (a b : Date) : Bool :=
  decide (a.year < b.year ∨ (a.year = b.year ∧
    (a.month < b.month ∨ (a.month = b.month ∧ a.day < b.day))))

/-- Python `date` comparison `a ≤ b`. -/
def dateLeB (a b : Date) : Bool := !(dateLtB b a)

/-- Cumulative days before the given month (used by `date.toordinal`). -/
def daysBeforeMonth (y m : Nat) : Nat :=
  let f : Nat := if isLeap y then 1 else 0
  match m with
  | 1 => 0
  | 2 => 31
  | 3 => 59 + f
  | 4 => 90 + f
  | 5 => 120 + f
  | 6 => 151 + f
  | 7 => 181 + f
  | 8 => 212 + f
  | 9 => 243 + f
  | 10 => 273 + f
  | 11 => 304 + f
  | _ => 334 + f

/-- Python `date.toordinal`: days since 0001-01-00 of the proleptic
Gregorian calendar. -/
def toOrdinal (d : Date) : Nat :=
  365 * (d.year - 1) + (d.year - 1) / 4 - (d.year - 1) / 100 +
    (d.year - 1) / 400 + daysBeforeMonth d.year d.month + d.day

/-- `(a - b).days` for Python dates: difference of ordinals. -/
def daysUntil (a b : Date) : Int := (toOrdinal a : Int) - (toOrdinal b : Int)

/-- Python `date.replace(year=y)`: rebuilds the date with the new year,
re-running the `datetime.date` constructor checks; raises `ValueError`
when the year is out of range or the day does not exist in the target
month of the target year (e.g. Feb 29 in a non-leap year). -/
def Date.replaceYear (d : Date) (y : Nat) : PyResult Date :=
  if y < 1 || 9999 < y then
    .exn (.valueError (str "year " ++ natStr y ++ str " is out of range"))
  else if daysInMonth y d.month < d.day then
    .exn (.valueError (str "day is out of range for month"))
  else
    .ok ⟨y, d.month, d.day⟩

/-- Two-digit zero-padded rendering (`strftime` `%d` and `%m`). -/
def pad2 (n : Nat) : Str := [digitChar (n / 10), digitChar (n % 10)]

/-- `strftime` `%Y`: the year in decimal (glibc does not zero-pad; all
years handled by this program are at most 9999). -/
def fmtYear (y : Nat) : Str :=
  if 1000 ≤ y then
    [digitChar (y / 1000), digitChar (y / 100 % 10), digitChar (y / 10 % 10),
      digitChar (y % 10)]
  else if 100 ≤ y then
    [digitChar (y / 100), digitChar (y / 10 % 10), digitChar (y % 10)]
  else if 10 ≤ y then
    [digitChar (y / 10), digitChar (y % 10)]
  else
    [digitChar y]

/-- `strftime("%d.%m.%Y")`, the format used by `Record.show_birthday` and
`AddressBook.get_upcoming_birthdays`. -/
def renderDate (d : Date) : Str :=
  pad2 d.day ++ ['.'] ++ pad2 d.month ++ ['.'] ++ fmtYear d.year

/-- The `%d` field of CPython `_strptime` (regex
`3[01]|[12]\d|0[1-9]|[1-9]`, alternatives tried in this order): consume a
one- or two-digit day and return it with the remaining input. -/
def splitDay : Str → Option (Nat × Str)
  | [] => none
  | [c] => if isDigit19 c then some (dval c, []) else none
  | c1 :: c2 :: rest =>
    if (c1 == '3' && (c2 == '0' || c2 == '1')) ||
        ((c1 == '1' || c1 == '2') && isAsciiDigit c2) ||
        (c1 == '0' && isDigit19 c2) then
      some (dval c1 * 10 + dval c2, rest)
    else if isDigit19 c1 then
      some (dval c1, c2 :: rest)
    else
      none

/-- The `%m` field of CPython `_strptime` (regex `1[0-2]|0[1-9]|[1-9]`). -/
def splitMonth : Str → Option (Nat × Str)
  | [] => none
  | [c] => if isDigit19 c then some (dval c, []) else none
  | c1 :: c2 :: rest =>
    if (c1 == '1' && (c2 == '0' || c2 == '1' || c2 == '2')) ||
        (c1 == '0' && isDigit19 c2) then
      some (dval c1 * 10 + dval c2, rest)
    else if isDigit19 c1 then
      some (dval c1, c2 :: rest)
    else
      none

/-- The `%Y` field of CPython `_strptime` (regex `\d\d\d\d`, exactly four
digits). -/
def parseYear4 : Str → Option (Nat × Str)
  | c1 :: c2 :: c3 :: c4 :: rest =>
    if isAsciiDigit c1 && isAsciiDigit c2 && isAsciiDigit c3 &&
        isAsciiDigit c4 then
      some (((dval c1 * 10 + dval c2) * 10 + dval c3) * 10 + dval c4, rest)
    else
      none
  | _ => none

/-- Match of the full `_strptime` pattern for `"%d.%m.%Y"` against a
prefix of the input; returns day, month, year and the unconsumed suffix.
(The two alternatives inside `%d`/`%m` constrain the following character
incompatibly — a digit versus a literal dot — so the regex backtracking is
deterministic and this direct translation is exact.) -/
def parseDMY (s : Str) : Option (Nat × Nat × Nat × Str) :=
  match splitDay s with
  | none => none
  | some (d, r1) =>
    match r1 with
    | '.' :: r2 =>
      match splitMonth r2 with
      | none => none
      | some (m, r3) =>
        match r3 with
        | '.' :: r4 =>
          match parseYear4 r4 with
          | none => none
          | some (y, rest) => some (d, m, y, rest)
        | _ => none
    | _ => none

/-- `Phone.__init__` (`src/task_10.py` lines 14-18): rejects the value
unless `value.isdigit()` holds and the length is 10; on success the phone
stores the value unchanged. -/
def Phone.init (value : Str) : PyResult Str :=
  if !(pyIsdigitStr value) || value.length != 10 then
    .exn (.valueError (str "Phone must be 10 digits."))
  else
    .ok value

/-- `Birthday.__init__` (`src/task_10.py` lines 20-30):
`datetime.strptime(value, "%d.%m.%Y")` followed by the future-date check.
A regex mismatch produces the `"time data …"` `ValueError`, which the
`except` clause replaces with `"Invalid date format. Use DD.MM.YYYY"`;
every other `ValueError` (unconverted trailing input, year out of range,
day out of range for month, future date) is re-raised unchanged. -/
def Birthday.init (value : Str) (today : Date) : PyResult Date :=
  match parseDMY value with
  | none => .exn (.valueError (str "Invalid date format. Use DD.MM.YYYY"))
  | some (d, m, y, rest) =>
    if !(rest.isEmpty) then
      .exn (.valueError (str "unconverted data remains: " ++ rest))
    else if y == 0 then
      .exn (.valueError (str "year 0 is out of range"))
    else if daysInMonth y m < d then
      .exn (.valueError (str "day is out of range for month"))
    else if dateLtB today ⟨y, m, d⟩ then
      .exn (.valueError (str "Birthday cannot be in the future."))
    else
      .ok ⟨y, m, d⟩

/-- A contact record: one name, an ordered list of (validated) phone
values, and an optional birthday date. -/
structure Record where
  name : Str
  phones : List Str
  birthday : Option Date
  deriving DecidableEq

/-- `Record.add_birthday`: validates and sets/overwrites the birthday.
`today` is the value of `date.today()` at call time. -/
def Record.add_birthday (r : Record) (birthday_date : Str) (today : Date) :
    PyResult Record :=
  match Birthday.init birthday_date today with
  | .ok b => .ok { r with birthday := some b }
  | .exn e => .exn e

/-- `Record.show_birthday`: the stored birthday rendered as `DD.MM.YYYY`,
or `"Not set"`. -/
def Record.show_birthday (r : Record) : Str :=
  match r.birthday with
  | some b => renderDate b
  | none => str "Not set"

/-- `Record.add_phone`: validates and appends a phone. -/
def Record.add_phone (r : Record) (phone_number : Str) : PyResult Record :=
  match Phone.init phone_number with
  | .ok p => .ok { r with phones := r.phones ++ [p] }
  | .exn e => .exn e

/-- The loop body of `Record.edit_phone`: scan for the first phone equal
to `old_phone`; replace it with a freshly validated `Phone(new_phone)`
(validation runs before the assignment, so a `ValueError` leaves the list
untouched); raise `ValueError("Phone number not found.")` when no phone
matches. -/
def editPhoneList : List Str → Str → Str → PyResult (List Str)
  | [], _, _ => .exn (.valueError (str "Phone number not found."))
  | p :: ps, old_phone, new_phone =>
    if p == old_phone then
      match Phone.init new_phone with
      | .ok np => .ok (np :: ps)
      | .exn e => .exn e
    else
      match editPhoneList ps old_phone new_phone with
      | .ok ps' => .ok (p :: ps')
      | .exn e => .exn e

/-- `Record.edit_phone` (`src/task_10.py` lines 54-62). -/
def Record.edit_phone (r : Record) (old_phone new_phone : Str) :
    PyResult Record :=
  match editPhoneList r.phones old_phone new_phone with
  | .ok ps => .ok { r with phones := ps }
  | .exn e => .exn e

/-- `Record.find_phone`: first stored phone equal to the argument, or
`None`. -/
def Record.find_phone (r : Record) (phone_number : Str) : Option Str :=
  r.phones.find? (fun p => p == phone_number)

/-- `'; '.join` / `', '.join`. -/
def joinSep (sep : Str) : List Str → Str
  | [] => []
  | [p] => p
  | p :: ps => p ++ sep ++ joinSep sep ps

/-- `Record.__str__`: `"Contact name: {name}, phones: {'; '.join(...)}"`
with a `", birthday: …"` suffix when a birthday is set. -/
def recordStr (r : Record) : Str :=
  str "Contact name: " ++ r.name ++ str ", phones: " ++
    joinSep (str "; ") r.phones ++
    (match r.birthday with
     | some _ => str ", birthday: " ++ Record.show_birthday r
     | none => [])

/-- The address book: insertion-ordered association of records, keyed by
record name (a Python `dict`; keys are unique in every state the program
actually builds). -/
abbrev Book := List Record

/-- `AddressBook.find`: `self.data.get(name)`. -/
def AddressBook.find (book : Book) (name : Str) : Option Record :=
  book.find? (fun r => r.name == name)

/-- Replace (in place) the first record with the given name. Python
mutates the single object stored under the key; in the list model this is
an in-position update that keeps insertion order. -/
def updateFirst (book : Book) (name : Str) (f : Record → Record) : Book :=
  match book with
  | [] => []
  | r :: rs => if r.name == name then f r :: rs else r :: updateFirst rs name f

/-- `AddressBook.add_record`: `self.data[key] = record` — replaces in
place when the key exists (keeping its position, as Python dicts do),
otherwise appends. -/
def AddressBook.add_record (book : Book) (record : Record) : Book :=
  match AddressBook.find book record.name with
  | some _ => updateFirst book record.name (fun _ => record)
  | none => book ++ [record]

/-- `AddressBook.delete`. -/
def AddressBook.delete (book : Book) (name : Str) : Book :=
  match AddressBook.find book name with
  | some _ => book.filter (fun r => !(r.name == name))
  | none => book

/-- The occurrence computation inside `get_upcoming_birthdays`
(`src/task_10.py` lines 93-96): this year's occurrence of the stored
month/day via `replace(year=today.year)`, rolled forward one year when it
falls strictly before `today`. -/
def upcomingOcc (b today : Date) : PyResult Date :=
  match b.replaceYear today.year with
  | .exn e => .exn e
  | .ok o => if dateLtB o today then o.replaceYear (today.year + 1) else .ok o

/-- `AddressBook.get_upcoming_birthdays` (`src/task_10.py` lines 87-105):
for each record with a birthday, include `(name, occurrence formatted
"%d.%m.%Y")` when the occurrence is 0 to 7 whole days from `today`.  A
`ValueError` escaping `replace` aborts the whole traversal. -/
def AddressBook.get_upcoming_birthdays : Book → Date → PyResult (List (Str × Str))
  | [], _ => .ok []
  | r :: rs, today =>
    match r.birthday with
    | none => AddressBook.get_upcoming_birthdays rs today
    | some b =>
      match upcomingOcc b today with
      | .exn e => .exn e
      | .ok occ =>
        match AddressBook.get_upcoming_birthdays rs today with
        | .exn e => .exn e
        | .ok rest =>
          if 0 ≤ daysUntil occ today ∧ daysUntil occ today ≤ 7 then
            .ok ((r.name, renderDate occ) :: rest)
          else
            .ok rest

/-- Python whitespace characters stripped by `str.strip` (ASCII range). -/
def isPySpace (c : Char) : Bool :=
  c == ' ' || c == '\t' || c == '\n' || c == '\r' ||
    c == Char.ofNat 11 || c == Char.ofNat 12

/-- `str.strip()`: drop whitespace from both ends. -/
def pyStrip (s : Str) : Str :=
  ((s.dropWhile isPySpace).reverse.dropWhile isPySpace).reverse

/-- `add_contact` (`src/task_10.py` lines 126-139).  Note the order of
operations: when the name is unknown, a fresh empty record is created and
inserted *before* the phone is validated, so a phone `ValueError` escapes
with the empty record already in the book. -/
def add_contact (args : List Str) (book : Book) : PyResult Str × Book :=
  if args.length < 2 then
    (.ok (str "Error: Please provide name and phone."), book)
  else
    let name := args.getD 0 []
    let phone := args.getD 1 []
    match AddressBook.find book name with
    | some _ =>
      if phone.isEmpty then (.ok (str "Contact updated."), book)
      else
        match Phone.init phone with
        | .ok p =>
          (.ok (str "Contact updated."),
            updateFirst book name (fun r => { r with phones := r.phones ++ [p] }))
        | .exn e => (.exn e, book)
    | none =>
      let book1 := AddressBook.add_record book (Record.mk name [] none)
      if phone.isEmpty then (.ok (str "Contact added."), book1)
      else
        match Phone.init phone with
        | .ok p =>
          (.ok (str "Contact added."),
            updateFirst book1 name (fun r => { r with phones := r.phones ++ [p] }))
        | .exn e => (.exn e, book1)

/-- `change_contact` (`src/task_10.py` lines 141-151).  The unpacking
`name, old_phone, new_phone = args` raises `ValueError` when more than
three arguments are given (the guard only checks `len(args) < 3`). -/
def change_contact (args : List Str) (book : Book) : PyResult Str × Book :=
  if args.length < 3 then
    (.ok (str "Error: Please provide name, old phone and new phone."), book)
  else if 3 < args.length then
    (.exn (.valueError (str "too many values to unpack (expected 3)")), book)
  else
    let name := args.getD 0 []
    let old_phone := args.getD 1 []
    let new_phone := args.getD 2 []
    match AddressBook.find book name with
    | some record =>
      match Record.edit_phone record old_phone new_phone with
      | .ok r' =>
        (.ok (str "Phone number updated."), updateFirst book name (fun _ => r'))
      | .exn e => (.exn e, book)
    | none => (.ok (str "Contact not found."), book)

/-- `show_phone` (`src/task_10.py` lines 153-163). -/
def show_phone (args : List Str) (book : Book) : PyResult Str × Book :=
  if args.length < 1 then
    (.ok (str "Error: Please provide name."), book)
  else
    let name := args.getD 0 []
    match AddressBook.find book name with
    | some record =>
      let phones := joinSep (str ", ") record.phones
      if phones.isEmpty then
        (.ok (name ++ str ": No phones"), book)
      else
        (.ok (name ++ str ": " ++ phones), book)
    | none => (.ok (str "Contact not found."), book)

/-- The numbered listing built by `show_all` (1-based `enumerate`). -/
def allLines : Book → Nat → Str
  | [], _ => []
  | r :: rs, i => natStr i ++ str ". " ++ recordStr r ++ ['\n'] ++ allLines rs (i + 1)

/-- `show_all` (`src/task_10.py` lines 165-172). -/
def show_all (book : Book) : PyResult Str × Book :=
  if book.isEmpty then
    (.ok (str "No contacts found."), book)
  else
    (.ok (pyStrip (str "All contacts:\n" ++ allLines book 1)), book)

/-- `add_birthday` handler (`src/task_10.py` lines 174-184). -/
def add_birthday (args : List Str) (book : Book) (today : Date) :
    PyResult Str × Book :=
  if args.length < 2 then
    (.ok (str "Error: Please provide name and birthday."), book)
  else
    let name := args.getD 0 []
    let birthday := args.getD 1 []
    match AddressBook.find book name with
    | some record =>
      match Record.add_birthday record birthday today with
      | .ok r' =>
        (.ok (str "Birthday added for " ++ name ++ str "."),
          updateFirst book name (fun _ => r'))
      | .exn e => (.exn e, book)
    | none => (.ok (str "Contact not found."), book)

/-- `show_birthday` handler (`src/task_10.py` lines 186-195). -/
def show_birthday (args : List Str) (book : Book) : PyResult Str × Book :=
  if args.length < 1 then
    (.ok (str "Error: Please provide name."), book)
  else
    let name := args.getD 0 []
    match AddressBook.find book name with
    | some record =>
      (.ok (name ++ [apos] ++ str "s birthday: " ++ Record.show_birthday record),
        book)
    | none => (.ok (str "Contact not found."), book)

/-- The numbered listing built by `birthdays`. -/
def upcomingLines : List (Str × Str) → Nat → Str
  | [], _ => []
  | (n, d) :: rest, i =>
    natStr i ++ str ". " ++ n ++ str ": " ++ d ++ ['\n'] ++ upcomingLines rest (i + 1)

/-- `birthdays` handler (`src/task_10.py` lines 197-206); its `args`
parameter is unused by the source. -/
def birthdays (args : List Str) (book : Book) (today : Date) :
    PyResult Str × Book :=
  match AddressBook.get_upcoming_birthdays book today with
  | .exn e => (.exn e, book)
  | .ok upcoming =>
    if upcoming.isEmpty then
      (.ok (str "No upcoming birthdays in the next week."), book)
    else
      (.ok (pyStrip (str "Upcoming birthdays this week:\n" ++
        upcomingLines upcoming 1)), book)

/-- The error translation of the `input_error` decorator
(`src/task_10.py` lines 112-124). -/
def renderError : PyExc → Str
  | .valueError m => str "Error: " ++ m
  | .keyError => str "Error: Contact not found."
  | .indexError => str "Error: Please provide all required arguments."
  | .otherError m => str "Unexpected error: " ++ m

/-- `input_error` applied to a handler outcome: a raised exception is
converted to its user-facing text line; the book state is whatever the
handler left behind. -/
def input_error (res : PyResult Str × Book) : Str × Book :=
  match res with
  | (.ok s, b) => (s, b)
  | (.exn e, b) => (renderError e, b)

/-- The command words dispatched by `main` to `input_error`-decorated
handlers. -/
inductive Command where
  | addCmd
  | changeCmd
  | phoneCmd
  | allCmd
  | addBirthdayCmd
  | showBirthdayCmd
  | birthdaysCmd
  deriving DecidableEq

/-- The raw (undecorated) handler for each command word, with the value of
`date.today()` passed explicitly to the date-dependent handlers. -/
def dispatchRaw : Command → List Str → Book → Date → PyResult Str × Book
  | .addCmd, args, book, _ => add_contact args book
  | .changeCmd, args, book, _ => change_contact args book
  | .phoneCmd, args, book, _ => show_phone args book
  | .allCmd, _, book, _ => show_all book
  | .addBirthdayCmd, args, book, today => add_birthday args book today
  | .showBirthdayCmd, args, book, _ => show_birthday args book
  | .birthdaysCmd, args, book, today => birthdays args book today

/-- One dispatched command as the `main` loop runs it: the raw handler
wrapped in `input_error`. -/
def dispatch (c : Command) (args : List Str) (book : Book) (today : Date) :
    Str × Book :=
  input_error (dispatchRaw c args book today)

/-- A whole session: the book states reachable by running a sequence of
commands (each with its argument list and the current date at that step)
from the initial empty book. -/
def run : List (Command × List Str × Date) → Book → Book
  | [], book => book
  | (c, args, t) :: ops, book => run ops (dispatch c args book t).2

/-- Prefix test on Python strings. -/
def hasStrPrefix : Str → Str → Bool
  | [], _ => true
  | _ :: _, [] => false
  | a :: p, b :: s => a == b && hasStrPrefix p s

/-- Whether an output line reports a failure to the user: the `Error:` /
`Unexpected error:` lines produced by `input_error`, the literal
argument-count messages (which also start with `Error`), or the literal
`"Contact not found."` returned by the lookup handlers. -/
def isErrorReport (out : Str) : Bool :=
  hasStrPrefix (str "Error") out || hasStrPrefix (str "Unexpected error") out ||
    out == str "Contact not found."

/-- Modelled from the spec: the strict `DD.MM.YYYY` pattern (2-digit day,
2-digit month, 4-digit year, dot separators), for comparison with what the
code actually accepts. -/
def isDDMMYYYY (s : Str) : Bool :=
  match s with
  | [d1, d2, p1, m1, m2, p2, y1, y2, y3, y4] =>
    isAsciiDigit d1 && isAsciiDigit d2 && p1 == '.' && isAsciiDigit m1 &&
      isAsciiDigit m2 && p2 == '.' && isAsciiDigit y1 && isAsciiDigit y2 &&
      isAsciiDigit y3 && isAsciiDigit y4
  | _ => false

/-- The spec-side inclusion condition for `upcomingBirthdays`: the
record's birthday occurrence (this year's month/day, rolled forward one
year when strictly before the reference date) together with its formatted
text, when that occurrence is 0 to 7 whole days away; `none` when the
record has no birthday, the occurrence is unrealizable, or it is outside
the window. -/
def specEntry (r : Record) (today : Date) : Option (Str × Str) :=
  match r.birthday with
  | none => none
  | some b =>
    match upcomingOcc b today with
    | .exn _ => none
    | .ok occ =>
      if 0 ≤ daysUntil occ today ∧ daysUntil occ today ≤ 7 then
        some (r.name, renderDate occ)
      else
        none

/-- The data-model invariant of reachable book states (`ds` is the list of
`date.today()` values seen so far): every stored phone passed the 10-digit
validation, and every stored birthday is a valid calendar date not after
one of the dates at which a birthday was validated. -/
def BookInv (ds : List Date) (book : Book) : Prop :=
  ∀ r ∈ book,
    (∀ p ∈ r.phones, p.length = 10 ∧ p.all pyIsdigitChar = true) ∧
    (∀ b, r.birthday = some b →
      validDate b = true ∧ ∃ t ∈ ds, dateLeB b t = true)

/-! ## Helper lemmas -/

theorem phone_init_ok_iff {s t : Str} :
    Phone.init s = .ok t ↔ (t = s ∧ s.length = 10 ∧ s.all pyIsdigitChar = true) := by
  unfold Phone.init
  by_cases h : s.length = 10 ∧ s.all pyIsdigitChar = true
  · have hne : s.isEmpty = false := by
      rcases s with _ | ⟨c, cs⟩
      · simp at h
      · rfl
    have hcond : (!(pyIsdigitStr s) || s.length != 10) = false := by
      simp [pyIsdigitStr, hne, h.1, h.2]
    rw [hcond]
    simp only [Bool.false_eq_true, if_false]
    constructor
    · intro he; cases he; exact ⟨rfl, h⟩
    · rintro ⟨rfl, _⟩; rfl
  · have hcond : (!(pyIsdigitStr s) || s.length != 10) = true := by
      rcases Decidable.not_and_iff_or_not.mp h with h1 | h1
      · simp [bne_iff_ne, h1]
      · simp only [Bool.or_eq_true, Bool.not_eq_true']
        left
        simp only [pyIsdigitStr, Bool.and_eq_false_iff]
        right
        exact Bool.not_eq_true _ ▸ (by simpa using h1)
    rw [hcond]
    simp only [if_true]
    constructor
    · intro he; cases he
    · rintro ⟨rfl, hh⟩; exact absurd hh h

theorem phone_init_exn_iff {s : Str} :
    ¬ (s.length = 10 ∧ s.all pyIsdigitChar = true) ↔
      Phone.init s = .exn (.valueError (str "Phone must be 10 digits.")) := by
  constructor
  · intro h
    rcases he : Phone.init s with v | e
    · exact absurd (phone_init_ok_iff.mp he).2 h
    · unfold Phone.init at he
      split at he
      · cases he; rfl
      · cases he
  · intro he hc
    have := phone_init_ok_iff.mpr ⟨rfl, hc⟩
    rw [he] at this
    cases this

theorem input_error_snd (res : PyResult Str × Book) :
    (input_error res).2 = res.2 := by
  rcases res with ⟨r, b⟩
  cases r <;> rfl

theorem show_phone_frame (args : List Str) (book : Book) :
    (show_phone args book).2 = book := by
  unfold show_phone
  split
  · rfl
  · dsimp only
    split
    · split <;> rfl
    · rfl

theorem show_birthday_frame (args : List Str) (book : Book) :
    (show_birthday args book).2 = book := by
  unfold show_birthday
  split
  · rfl
  · dsimp only
    split <;> rfl

theorem show_all_frame (book : Book) : (show_all book).2 = book := by
  unfold show_all
  split <;> rfl

theorem birthdays_frame (args : List Str) (book : Book) (today : Date) :
    (birthdays args book today).2 = book := by
  unfold birthdays
  split
  · rfl
  · split <;> rfl

/-! ## C7 -/

/-- C7: every failure raised inside a dispatched handler is caught at the
dispatch boundary and converted to exactly one of the four user-facing
text lines of `input_error`; the dispatched command always produces a
plain output line (no failure propagates past the boundary). -/
theorem claim7_dispatch_boundary :
    ∀ (c : Command) (args : List Str) (book : Book) (today : Date),
      ∃ out book', dispatch c args book today = (out, book') ∧
        ((∃ s, dispatchRaw c args book today = (.ok s, book') ∧ out = s) ∨
         (∃ e, dispatchRaw c args book today = (.exn e, book') ∧
           out = renderError e ∧
           ((∃ m, out = str "Error: " ++ m) ∨
            out = str "Error: Contact not found." ∨
            out = str "Error: Please provide all required arguments." ∨
            (∃ m, out = str "Unexpected error: " ++ m)))) := by
  intro c args book today
  rcases h : dispatchRaw c args book today with ⟨res, book'⟩
  cases res with
  | ok s =>
    exact ⟨s, book', by simp [dispatch, h, input_error], Or.inl ⟨s, rfl, rfl⟩⟩
  | exn e =>
    refine ⟨renderError e, book', by simp [dispatch, h, input_error],
      Or.inr ⟨e, rfl, rfl, ?_⟩⟩
    cases e with
    | valueError m => exact Or.inl ⟨m, rfl⟩
    | keyError => exact Or.inr (Or.inl rfl)
    | indexError => exact Or.inr (Or.inr (Or.inl rfl))
    | otherError m => exact Or.inr (Or.inr (Or.inr ⟨m, rfl⟩))

/-! ## C10 -/

/-- C10: the query commands `phone`, `show-birthday`, `birthdays` and
`all` leave the address book (and hence every record in it) unchanged,
whether they succeed or report an error. -/
theorem claim10_queries_frame :
    ∀ (args : List Str) (book : Book) (today : Date),
      (dispatch .phoneCmd args book today).2 = book ∧
      (dispatch .showBirthdayCmd args book today).2 = book ∧
      (dispatch .birthdaysCmd args book today).2 = book ∧
      (dispatch .allCmd args book today).2 = book := by
  intro args book today
  refine ⟨?_, ?_, ?_, ?_⟩
  · rw [dispatch, input_error_snd]; exact show_phone_frame args book
  · rw [dispatch, input_error_snd]; exact show_birthday_frame args book
  · rw [dispatch, input_error_snd]; exact birthdays_frame args book today
  · rw [dispatch, input_error_snd]; exact show_all_frame book

/-! ## C3 -/

theorem editPhoneList_notfound {ps : List Str} {old_phone new_phone : Str}
    (h : old_phone ∉ ps) :
    editPhoneList ps old_phone new_phone =
      .exn (.valueError (str "Phone number not found.")) := by
  induction ps with
  | nil => rfl
  | cons p ps ih =>
    simp only [List.mem_cons, not_or] at h
    have hp : (p == old_phone) = false := by
      simp only [beq_eq_false_iff_ne]
      exact fun e => h.1 e.symm
    rw [editPhoneList, hp]
    simp only [Bool.false_eq_true, if_false]
    rw [ih h.2]

theorem editPhoneList_unique {ps : List Str} {old_phone new_phone : Str}
    (hc : ps.count old_phone = 1) (hne : old_phone ≠ new_phone)
    (hv : Phone.init new_phone = .ok new_phone) :
    ∃ qs, editPhoneList ps old_phone new_phone = .ok qs ∧
      qs.find? (fun p => p == old_phone) = none ∧
      qs.find? (fun p => p == new_phone) = some new_phone := by
  induction ps with
  | nil => simp [List.count_nil] at hc
  | cons p ps ih =>
    by_cases hp : p = old_phone
    · subst hp
      have hzero : ps.count p = 0 := by
        rw [List.count_cons_self] at hc; omega
      have hnot : p ∉ ps := List.count_eq_zero.mp hzero
      have h1 : (new_phone == p) = false := by
        simp only [beq_eq_false_iff_ne, ne_eq]
        exact fun e => hne e.symm
      refine ⟨new_phone :: ps, ?_, ?_, ?_⟩
      · rw [editPhoneList]
        simp only [beq_self_eq_true, if_true]
        rw [hv]
      · simp only [List.find?, h1]
        exact List.find?_eq_none.mpr fun x hx hbx => hnot ((beq_iff_eq.mp hbx) ▸ hx)
      · simp only [List.find?, beq_self_eq_true]
    · have hp' : (p == old_phone) = false := by
        simp only [beq_eq_false_iff_ne, ne_eq]; exact hp
      have hc' : ps.count old_phone = 1 := by
        rw [List.count_cons, hp'] at hc
        simpa using hc
      rcases ih hc' with ⟨qs, hq, hfo, hfn⟩
      refine ⟨p :: qs, ?_, ?_, ?_⟩
      · rw [editPhoneList, hp']
        simp only [Bool.false_eq_true, if_false]
        rw [hq]
      · simp only [List.find?, hp']
        exact hfo
      · by_cases hpn : p = new_phone
        · subst hpn
          simp only [List.find?, beq_self_eq_true]
        · have h2 : (p == new_phone) = false := by
            simp only [beq_eq_false_iff_ne, ne_eq]; exact hpn
          simp only [List.find?, h2]
          exact hfn

/-- C3 (amended): when the old phone occurs exactly once in the record and
the new text is a distinct valid phone, `edit_phone` replaces it so that
`find_phone` afterwards reports the old value absent and the new value
present; when the old phone matches no stored phone, `edit_phone` fails
with the not-found `ValueError` (leaving the record unreplaced, since the
failure occurs before any assignment). -/
theorem claim3_edit_phone :
    ∀ (r : Record) (old_phone new_phone : Str),
      (r.phones.count old_phone = 1 → old_phone ≠ new_phone →
        Phone.init new_phone = .ok new_phone →
        ∃ r', Record.edit_phone r old_phone new_phone = .ok r' ∧
          Record.find_phone r' old_phone = none ∧
          Record.find_phone r' new_phone = some new_phone) ∧
      (old_phone ∉ r.phones →
        Record.edit_phone r old_phone new_phone =
          .exn (.valueError (str "Phone number not found."))) := by
  intro r old_phone new_phone
  constructor
  · intro hc hne hv
    rcases editPhoneList_unique hc hne hv with ⟨qs, hq, hfo, hfn⟩
    refine ⟨{ r with phones := qs }, ?_, hfo, hfn⟩
    rw [Record.edit_phone, hq]
  · intro hmem
    rw [Record.edit_phone, editPhoneList_notfound hmem]

/-- C3 counterexample: with the old phone stored twice, `edit_phone`
replaces only the first occurrence, and `find_phone` still reports the old
phone present afterwards — the claim's "findPhone(oldText) afterwards
returns absent" fails. -/
theorem claim3_counterexample :
    Record.edit_phone
        ⟨str "bob", [str "1111111111", str "1111111111"], none⟩
        (str "1111111111") (str "2222222222") =
      .ok ⟨str "bob", [str "2222222222", str "1111111111"], none⟩ ∧
    Record.find_phone
        ⟨str "bob", [str "2222222222", str "1111111111"], none⟩
        (str "1111111111") = some (str "1111111111") := by
  exact ⟨by decide, by decide⟩

/-- C3 witness: a concrete instance of the amended theorem. -/
theorem claim3_witness :
    ∃ r', Record.edit_phone
        ⟨str "bob", [str "1111111111", str "3333333333"], none⟩
        (str "1111111111") (str "2222222222") = .ok r' ∧
      Record.find_phone r' (str "1111111111") = none ∧
      Record.find_phone r' (str "2222222222") = some (str "2222222222") :=
  (claim3_edit_phone ⟨str "bob", [str "1111111111", str "3333333333"], none⟩
      (str "1111111111") (str "2222222222")).1 (by decide) (by decide) (by decide)

/-! ## C4 -/

theorem all_ascii_pyIsdigit {s : Str} (h : s.all isAsciiDigit = true) :
    s.all pyIsdigitChar = true := by
  rw [List.all_eq_true] at h ⊢
  intro c hc
  rw [pyIsdigitChar]
  simp only [Bool.or_eq_true]
  exact Or.inl (Or.inl (Or.inl (h c hc)))

/-- C4 (amended): Phone construction succeeds exactly when the input has
length 10 and every character passes Python's `str.isdigit` test — a
superset of the ASCII digits that also contains, e.g., the superscript
digit characters; on success the stored (rendered) value is the input
itself, and otherwise construction fails with
`ValueError("Phone must be 10 digits.")`.  In particular every 10-ASCII-
digit string is accepted, but "exactly the 10-ASCII-digit strings" is
false. -/
theorem claim4_phone_validation :
    ∀ s : Str,
      (Phone.init s = .ok s ↔ (s.length = 10 ∧ s.all pyIsdigitChar = true)) ∧
      ((s.length = 10 ∧ s.all isAsciiDigit = true) → Phone.init s = .ok s) ∧
      (¬ (s.length = 10 ∧ s.all pyIsdigitChar = true) →
        Phone.init s = .exn (.valueError (str "Phone must be 10 digits."))) := by
  intro s
  refine ⟨?_, ?_, ?_⟩
  · constructor
    · intro h; exact (phone_init_ok_iff.mp h).2
    · intro h; exact phone_init_ok_iff.mpr ⟨rfl, h⟩
  · intro h
    exact phone_init_ok_iff.mpr ⟨rfl, h.1, all_ascii_pyIsdigit h.2⟩
  · intro h
    exact phone_init_exn_iff.mp h

/-- C4 counterexample: the string of ten `²` characters (each a Python
digit by `str.isdigit`, none an ASCII digit) is accepted by Phone
construction, refuting "succeeds exactly when every character is an ASCII
digit". -/
theorem claim4_counterexample :
    Phone.init (List.replicate 10 '²') = .ok (List.replicate 10 '²') ∧
    (List.replicate 10 '²').all isAsciiDigit = false ∧
    (List.replicate 10 '²').length = 10 := by
  exact ⟨by decide, by decide, by decide⟩

/-- C4 witness: a concrete 10-ASCII-digit string is accepted and renders
to itself. -/
theorem claim4_witness :
    Phone.init (str "0123456789") = .ok (str "0123456789") :=
  (claim4_phone_validation (str "0123456789")).2.1 (by decide)

/-! ## C6 -/

theorem phone_ok_not_empty {phone : Str} (hv : Phone.init phone = .ok phone) :
    phone.isEmpty = false := by
  have hlen := (phone_init_ok_iff.mp hv).2.1
  rcases phone with _ | ⟨c, cs⟩
  · simp at hlen
  · rfl

theorem updateFirst_append_last {book : Book} {name : Str} {r : Record}
    (h : AddressBook.find book name = none) (hr : (r.name == name) = true)
    (f : Record → Record) :
    updateFirst (book ++ [r]) name f = book ++ [f r] := by
  induction book with
  | nil => simp [updateFirst, hr]
  | cons x xs ih =>
    rw [AddressBook.find, List.find?] at h
    rcases hx : x.name == name with _ | _
    · rw [hx] at h
      dsimp only at h
      simp only [List.cons_append, updateFirst, hx, Bool.false_eq_true, if_false,
        List.append_eq]
      rw [ih h]
    · rw [hx] at h; cases h

/-- C6: with a valid name and 10-digit phone, the `add` command returns
`"Contact added."` exactly when no record existed under that name (a fresh
record is inserted at the end and the phone appended to it), and
`"Contact updated."` when a record already existed — the existing record
is reused in place (the phone appended to its list), not replaced. -/
theorem claim6_add_contact :
    ∀ (book : Book) (name phone : Str) (today : Date),
      Phone.init phone = .ok phone →
      (AddressBook.find book name = none →
        dispatch .addCmd [name, phone] book today =
          (str "Contact added.", book ++ [Record.mk name [phone] none])) ∧
      (∀ rec, AddressBook.find book name = some rec →
        dispatch .addCmd [name, phone] book today =
          (str "Contact updated.",
            updateFirst book name
              (fun r => { r with phones := r.phones ++ [phone] }))) := by
  intro book name phone today hv
  have hne := phone_ok_not_empty hv
  constructor
  · intro hf
    show input_error (add_contact [name, phone] book) = _
    unfold add_contact
    rw [if_neg (by simp)]
    dsimp only [List.getD_cons_zero, List.getD_cons_succ]
    rw [hf]
    dsimp only
    rw [hne]
    simp only [Bool.false_eq_true, if_false]
    rw [hv]
    dsimp only [input_error]
    rw [AddressBook.add_record]
    dsimp only
    rw [hf]
    rw [updateFirst_append_last hf (by simp) _]
    rfl
  · intro rec hf
    show input_error (add_contact [name, phone] book) = _
    unfold add_contact
    rw [if_neg (by simp)]
    dsimp only [List.getD_cons_zero, List.getD_cons_succ]
    rw [hf]
    dsimp only
    rw [hne]
    simp only [Bool.false_eq_true, if_false]
    rw [hv]
    rfl

/-- C6 witness: the end-to-end example — `add alice 0123456789` on the
empty book answers "Contact added."; repeating with a second phone answers
"Contact updated." and the record then holds both phones. -/
theorem claim6_witness :
    dispatch .addCmd [str "alice", str "0123456789"] [] ⟨2024, 6, 10⟩ =
      (str "Contact added.", [Record.mk (str "alice") [str "0123456789"] none]) ∧
    dispatch .addCmd [str "alice", str "9876543210"]
        [Record.mk (str "alice") [str "0123456789"] none] ⟨2024, 6, 10⟩ =
      (str "Contact updated.",
        [Record.mk (str "alice") [str "0123456789", str "9876543210"] none]) := by
  constructor
  · have h := (claim6_add_contact [] (str "alice") (str "0123456789")
      ⟨2024, 6, 10⟩ (by decide)).1 (by decide)
    simpa using h
  · have h := (claim6_add_contact [Record.mk (str "alice") [str "0123456789"] none]
      (str "alice") (str "9876543210") ⟨2024, 6, 10⟩ (by decide)).2
      (Record.mk (str "alice") [str "0123456789"] none) (by decide)
    simpa [updateFirst] using h

/-! ## C2 -/

/-- C2 (amended): whenever a dispatched command reports a failure
(an `Error:`/`Unexpected error:` line or `"Contact not found."`), the
address book is exactly as it was before the command ran — except for the
`add` command, which on an unknown name inserts a fresh empty record
*before* validating the phone, so a phone `ValueError` leaves that new
record (with no phones and no birthday) in the book. -/
theorem claim2_error_isolation :
    ∀ (c : Command) (args : List Str) (book : Book) (today : Date)
      (out : Str) (book' : Book),
      dispatch c args book today = (out, book') →
      isErrorReport out = true →
      (book' = book ∨
        (c = .addCmd ∧ ∃ name phone rest e, args = name :: phone :: rest ∧
          AddressBook.find book name = none ∧
          Phone.init phone = .exn e ∧
          book' = book ++ [Record.mk name [] none])) := by
  intro c args book today out book' h hrep
  cases c with
  | phoneCmd =>
    left
    have h2 := congrArg Prod.snd h
    rw [dispatch, input_error_snd] at h2
    rw [show (dispatchRaw .phoneCmd args book today).2 =
      (show_phone args book).2 from rfl, show_phone_frame] at h2
    exact h2.symm
  | allCmd =>
    left
    have h2 := congrArg Prod.snd h
    rw [dispatch, input_error_snd] at h2
    rw [show (dispatchRaw .allCmd args book today).2 =
      (show_all book).2 from rfl, show_all_frame] at h2
    exact h2.symm
  | showBirthdayCmd =>
    left
    have h2 := congrArg Prod.snd h
    rw [dispatch, input_error_snd] at h2
    rw [show (dispatchRaw .showBirthdayCmd args book today).2 =
      (show_birthday args book).2 from rfl, show_birthday_frame] at h2
    exact h2.symm
  | birthdaysCmd =>
    left
    have h2 := congrArg Prod.snd h
    rw [dispatch, input_error_snd] at h2
    rw [show (dispatchRaw .birthdaysCmd args book today).2 =
      (birthdays args book today).2 from rfl, birthdays_frame] at h2
    exact h2.symm
  | addCmd =>
    rw [show dispatch .addCmd args book today =
      input_error (add_contact args book) from rfl] at h
    unfold add_contact at h
    by_cases hlen : args.length < 2
    · rw [if_pos hlen] at h
      dsimp only [input_error] at h
      injection h with h1 h2
      exact Or.inl h2.symm
    · rw [if_neg hlen] at h
      rcases args with _ | ⟨name, _ | ⟨phone, rest⟩⟩
      · exact absurd (by simp) hlen
      · exact absurd (by simp) hlen
      · dsimp only [List.getD_cons_zero, List.getD_cons_succ] at h
        rcases hf : AddressBook.find book name with _ | rec
        · rw [hf] at h
          dsimp only at h
          rcases hemp : phone.isEmpty with _ | _
          · rw [hemp] at h
            simp only [Bool.false_eq_true, if_false] at h
            rcases hp : Phone.init phone with p | e
            · rw [hp] at h
              dsimp only [input_error] at h
              injection h with h1 h2
              rw [← h1] at hrep
              exact absurd hrep (by decide)
            · rw [hp] at h
              dsimp only [input_error] at h
              injection h with h1 h2
              right
              refine ⟨rfl, name, phone, rest, e, rfl, hf, hp, ?_⟩
              rw [← h2, AddressBook.add_record]
              dsimp only
              rw [hf]
          · rw [hemp] at h
            simp only [if_true] at h
            dsimp only [input_error] at h
            injection h with h1 h2
            rw [← h1] at hrep
            exact absurd hrep (by decide)
        · rw [hf] at h
          dsimp only at h
          rcases hemp : phone.isEmpty with _ | _
          · rw [hemp] at h
            simp only [Bool.false_eq_true, if_false] at h
            rcases hp : Phone.init phone with p | e
            · rw [hp] at h
              dsimp only [input_error] at h
              injection h with h1 h2
              rw [← h1] at hrep
              exact absurd hrep (by decide)
            · rw [hp] at h
              dsimp only [input_error] at h
              injection h with h1 h2
              exact Or.inl h2.symm
          · rw [hemp] at h
            simp only [if_true] at h
            dsimp only [input_error] at h
            injection h with h1 h2
            rw [← h1] at hrep
            exact absurd hrep (by decide)
  | changeCmd =>
    left
    rw [show dispatch .changeCmd args book today =
      input_error (change_contact args book) from rfl] at h
    unfold change_contact at h
    by_cases hlen : args.length < 3
    · rw [if_pos hlen] at h
      dsimp only [input_error] at h
      injection h with h1 h2
      exact h2.symm
    · rw [if_neg hlen] at h
      by_cases hlen2 : 3 < args.length
      · rw [if_pos hlen2] at h
        dsimp only [input_error] at h
        injection h with h1 h2
        exact h2.symm
      · rw [if_neg hlen2] at h
        dsimp only at h
        rcases hf : AddressBook.find book (args.getD 0 []) with _ | rec
        · rw [hf] at h
          dsimp only [input_error] at h
          injection h with h1 h2
          exact h2.symm
        · rw [hf] at h
          dsimp only at h
          rcases he : Record.edit_phone rec (args.getD 1 []) (args.getD 2 []) with r' | e
          · rw [he] at h
            dsimp only [input_error] at h
            injection h with h1 h2
            rw [← h1] at hrep
            exact absurd hrep (by decide)
          · rw [he] at h
            dsimp only [input_error] at h
            injection h with h1 h2
            exact h2.symm
  | addBirthdayCmd =>
    left
    rw [show dispatch .addBirthdayCmd args book today =
      input_error (add_birthday args book today) from rfl] at h
    unfold add_birthday at h
    by_cases hlen : args.length < 2
    · rw [if_pos hlen] at h
      dsimp only [input_error] at h
      injection h with h1 h2
      exact h2.symm
    · rw [if_neg hlen] at h
      dsimp only at h
      rcases hf : AddressBook.find book (args.getD 0 []) with _ | rec
      · rw [hf] at h
        dsimp only [input_error] at h
        injection h with h1 h2
        exact h2.symm
      · rw [hf] at h
        dsimp only at h
        rcases hb : Record.add_birthday rec (args.getD 1 []) today with r' | e
        · rw [hb] at h
          dsimp only [input_error] at h
          injection h with h1 h2
          rw [← h1] at hrep
          rw [show isErrorReport (str "Birthday added for " ++ args.getD 0 [] ++ str ".") =
            false from rfl] at hrep
          cases hrep
        · rw [hb] at h
          dsimp only [input_error] at h
          injection h with h1 h2
          exact h2.symm

/-- C2 counterexample: `add alice 123` on the empty book reports
`Error: Phone must be 10 digits.` yet leaves behind a freshly inserted
empty record for `alice` — a partial mutation survives the error, so the
claim as stated is false. -/
theorem claim2_counterexample :
    dispatch .addCmd [str "alice", str "123"] [] ⟨2024, 6, 10⟩ =
      (str "Error: Phone must be 10 digits.", [Record.mk (str "alice") [] none]) ∧
    isErrorReport (str "Error: Phone must be 10 digits.") = true ∧
    ([Record.mk (str "alice") [] none] : Book) ≠ [] := by
  exact ⟨by decide, by decide, by decide⟩

/-- C2 witness: the amended theorem applied at the counterexample input —
the add command's failure leaves exactly the freshly inserted empty
record. -/
theorem claim2_witness :
    ([Record.mk (str "alice") [] none] : Book) = [] ∨
      (Command.addCmd = Command.addCmd ∧ ∃ name phone rest e,
        [str "alice", str "123"] = name :: phone :: rest ∧
        AddressBook.find [] name = none ∧
        Phone.init phone = .exn e ∧
        ([Record.mk (str "alice") [] none] : Book) =
          [] ++ [Record.mk name [] none]) :=
  claim2_error_isolation .addCmd [str "alice", str "123"] [] ⟨2024, 6, 10⟩
    (str "Error: Phone must be 10 digits.") [Record.mk (str "alice") [] none]
    (by decide) (by decide)

/-! ## C5 -/

theorem dval_digitChar {k : Nat} (h : k ≤ 9) : dval (digitChar k) = k := by
  interval_cases k <;> rfl

theorem isAsciiDigit_digitChar {k : Nat} (h : k ≤ 9) :
    isAsciiDigit (digitChar k) = true := by
  interval_cases k <;> rfl

theorem daysInMonth_le_31 (y m : Nat) : daysInMonth y m ≤ 31 := by
  unfold daysInMonth
  split
  · split <;> omega
  all_goals omega

theorem splitDay_pad2 {d : Nat} (h1 : 1 ≤ d) (h2 : d ≤ 31) (rest : Str) :
    splitDay (pad2 d ++ rest) = some (d, rest) := by
  interval_cases d <;> rfl

theorem splitMonth_pad2 {m : Nat} (h1 : 1 ≤ m) (h2 : m ≤ 12) (rest : Str) :
    splitMonth (pad2 m ++ rest) = some (m, rest) := by
  interval_cases m <;> rfl

theorem parseYear4_fmtYear {y : Nat} (h1 : 1000 ≤ y) (h2 : y ≤ 9999) (rest : Str) :
    parseYear4 (fmtYear y ++ rest) = some (y, rest) := by
  rw [fmtYear, if_pos h1]
  show parseYear4 (digitChar (y / 1000) :: digitChar (y / 100 % 10) ::
    digitChar (y / 10 % 10) :: digitChar (y % 10) :: rest) = some (y, rest)
  rw [parseYear4]
  rw [isAsciiDigit_digitChar (by omega), isAsciiDigit_digitChar (by omega),
    isAsciiDigit_digitChar (by omega), isAsciiDigit_digitChar (by omega)]
  simp only [Bool.and_self, if_true]
  rw [dval_digitChar (by omega), dval_digitChar (by omega),
    dval_digitChar (by omega), dval_digitChar (by omega)]
  congr 1
  congr 1
  omega

theorem parseDMY_renderDate {d : Date} (hv : validDate d = true)
    (hy : 1000 ≤ d.year) :
    parseDMY (renderDate d) = some (d.day, d.month, d.year, []) := by
  have hv' := of_decide_eq_true hv
  obtain ⟨h1, h2, h3, h4, h5, h6⟩ := hv'
  rw [renderDate]
  simp only [List.append_assoc]
  unfold parseDMY
  rw [splitDay_pad2 h5 (le_trans h6 (daysInMonth_le_31 _ _))]
  simp only [List.singleton_append]
  rw [splitMonth_pad2 h3 h4]
  simp only
  have hp4 : parseYear4 (fmtYear d.year) = some (d.year, []) := by
    have h := parseYear4_fmtYear hy h2 ([] : Str)
    rwa [List.append_nil] at h
  rw [hp4]

theorem birthday_init_render {d today : Date} (hv : validDate d = true)
    (hy : 1000 ≤ d.year) (hle : dateLtB today d = false) :
    Birthday.init (renderDate d) today = .ok d := by
  have hv' := of_decide_eq_true hv
  obtain ⟨h1, h2, h3, h4, h5, h6⟩ := hv'
  rw [Birthday.init, parseDMY_renderDate hv hy]
  dsimp only
  rw [show (d.year == 0) = false from beq_eq_false_iff_ne.mpr (by omega)]
  simp only [Bool.false_eq_true, if_false]
  rw [if_neg (show ¬ daysInMonth d.year d.month < d.day from by omega)]
  rw [show (⟨d.year, d.month, d.day⟩ : Date) = d from rfl, hle]
  simp only [Bool.false_eq_true, if_false]
  rfl

theorem birthday_init_future {d today : Date} (hv : validDate d = true)
    (hy : 1000 ≤ d.year) (hlt : dateLtB today d = true) :
    Birthday.init (renderDate d) today =
      .exn (.valueError (str "Birthday cannot be in the future.")) := by
  have hv' := of_decide_eq_true hv
  obtain ⟨h1, h2, h3, h4, h5, h6⟩ := hv'
  rw [Birthday.init, parseDMY_renderDate hv hy]
  dsimp only
  rw [show (d.year == 0) = false from beq_eq_false_iff_ne.mpr (by omega)]
  simp only [Bool.false_eq_true, if_false]
  rw [if_neg (show ¬ daysInMonth d.year d.month < d.day from by omega)]
  rw [show (⟨d.year, d.month, d.day⟩ : Date) = d from rfl, hlt]
  simp only [if_true]
  rfl

/-- C5 (amended): for every valid calendar date with a four-digit year,
the date rendered as `DD.MM.YYYY` is accepted by Birthday construction and
round-trips to the same stored date (and `show_birthday` reproduces the
rendered text) when the date is not after the current date; a rendered
date strictly after the current date is rejected with the future-date
`ValueError`; and every input the `%d.%m.%Y` `strptime` pattern cannot
match at all is rejected with `ValueError("Invalid date format. Use
DD.MM.YYYY")`.  (The pattern is more lenient than the claim's strict
`DD.MM.YYYY`: one-digit days and months such as `"5.6.2020"` are
accepted.) -/
theorem claim5_birthday_validation :
    ∀ (d today : Date),
      validDate d = true → 1000 ≤ d.year →
      ((dateLeB d today = true →
        Birthday.init (renderDate d) today = .ok d ∧
        ∀ n ps, Record.show_birthday (Record.mk n ps (some d)) = renderDate d) ∧
       (dateLtB today d = true →
        Birthday.init (renderDate d) today =
          .exn (.valueError (str "Birthday cannot be in the future."))) ∧
       (∀ s, parseDMY s = none →
        Birthday.init s today =
          .exn (.valueError (str "Invalid date format. Use DD.MM.YYYY")))) := by
  intro d today hv hy
  refine ⟨?_, ?_, ?_⟩
  · intro hle
    have hlt : dateLtB today d = false := by
      rw [dateLeB] at hle
      simpa using hle
    exact ⟨birthday_init_render hv hy hlt, fun n ps => rfl⟩
  · intro hlt
    exact birthday_init_future hv hy hlt
  · intro s hs
    rw [Birthday.init, hs]

/-- C5 counterexample: `"5.6.2020"` does not match the strict `DD.MM.YYYY`
pattern, yet Birthday construction accepts it (as 2020-06-05, with the
current date 2024-06-10), refuting "for every input string not matching
the DD.MM.YYYY pattern, construction fails". -/
theorem claim5_counterexample :
    Birthday.init (str "5.6.2020") ⟨2024, 6, 10⟩ = .ok ⟨2020, 6, 5⟩ ∧
    isDDMMYYYY (str "5.6.2020") = false := by
  exact ⟨by decide, by decide⟩

/-- C5 witness: the amended theorem at 2020-06-05 against current date
2024-06-10. -/
theorem claim5_witness :
    Birthday.init (renderDate ⟨2020, 6, 5⟩) ⟨2024, 6, 10⟩ = .ok ⟨2020, 6, 5⟩ ∧
    Record.show_birthday (Record.mk (str "alice") [] (some ⟨2020, 6, 5⟩)) =
      renderDate ⟨2020, 6, 5⟩ := by
  have h := ((claim5_birthday_validation ⟨2020, 6, 5⟩ ⟨2024, 6, 10⟩
    (by decide) (by decide)).1 (by decide))
  exact ⟨h.1, h.2 (str "alice") []⟩

/-! ## C8 -/

theorem isLeap_false_of_mod4 {y : Nat} (h : y % 4 ≠ 0) : isLeap y = false := by
  rw [isLeap]
  have hb : (y % 4 == 0) = false := by simpa using h
  rw [hb, Bool.false_and]

theorem replaceYear_exn {b : Date} {y : Nat} (h1 : 1 ≤ y) (h2 : y ≤ 9999)
    {e : PyExc} (h : Date.replaceYear b y = .exn e) :
    e = .valueError (str "day is out of range for month") := by
  unfold Date.replaceYear at h
  split at h
  · rename_i hcond
    simp only [Bool.or_eq_true, decide_eq_true_eq] at hcond
    omega
  · split at h
    · injection h with he
      exact he.symm
    · cases h

theorem upcomingOcc_exn {b today : Date} (h1 : 1 ≤ today.year)
    (h2 : today.year ≤ 9998) {e : PyExc} (h : upcomingOcc b today = .exn e) :
    e = .valueError (str "day is out of range for month") := by
  unfold upcomingOcc at h
  rcases hr : Date.replaceYear b today.year with o | e1
  · rw [hr] at h
    dsimp only at h
    split at h
    · exact replaceYear_exn (by omega) (by omega) h
    · cases h
  · rw [hr] at h
    dsimp only at h
    injection h with he
    subst he
    exact replaceYear_exn (by omega) (by omega) hr

theorem upcomingOcc_feb29 {b today : Date} (hm : b.month = 2) (hd : b.day = 29)
    (h1 : 1 ≤ today.year) (h2 : today.year ≤ 9999)
    (hl : isLeap today.year = false) :
    upcomingOcc b today =
      .exn (.valueError (str "day is out of range for month")) := by
  have hre : Date.replaceYear b today.year =
      .exn (.valueError (str "day is out of range for month")) := by
    unfold Date.replaceYear
    rw [if_neg (show ¬((decide (today.year < 1) || decide (9999 < today.year)) = true)
      from by simp; omega)]
    rw [if_pos (show daysInMonth today.year b.month < b.day from by
      rw [hm, hd]; simp [daysInMonth, hl])]
  unfold upcomingOcc
  rw [hre]

/-- C8 (amended): a birthday stored as Feb 29, met with a reference date
in a non-leap year, does **not** degrade to a nearby date: `date.replace`
raises `ValueError("day is out of range for month")`, so
`get_upcoming_birthdays` aborts with that error (for any reference year in
1..9998 that is not divisible by 4). -/
theorem claim8_leap_day :
    ∀ (book : Book) (today : Date),
      1 ≤ today.year → today.year ≤ 9998 → today.year % 4 ≠ 0 →
      (∃ r ∈ book, ∃ b, r.birthday = some b ∧ b.month = 2 ∧ b.day = 29) →
      AddressBook.get_upcoming_birthdays book today =
        .exn (.valueError (str "day is out of range for month")) := by
  intro book today h1 h2 h4 hex
  induction book with
  | nil =>
    rcases hex with ⟨r, hr, _⟩
    cases hr
  | cons x xs ih =>
    rcases hex with ⟨r, hr, b, hb, hm, hd⟩
    simp only [AddressBook.get_upcoming_birthdays]
    rcases List.mem_cons.mp hr with rfl | hmem
    · rw [hb]
      dsimp only
      rw [upcomingOcc_feb29 hm hd h1 (by omega) (isLeap_false_of_mod4 h4)]
    · have htail := ih ⟨r, hmem, b, hb, hm, hd⟩
      rcases hx : x.birthday with _ | bx
      · dsimp only
        exact htail
      · dsimp only
        rcases ho : upcomingOcc bx today with occ | e
        · dsimp only
          rw [htail]
        · dsimp only
          rw [upcomingOcc_exn h1 h2 ho]

/-- C8 counterexample: a record with birthday 2020-02-29 and reference
date 2023-06-10 makes `get_upcoming_birthdays` raise instead of
completing with a clamped date, refuting the claim. -/
theorem claim8_counterexample :
    AddressBook.get_upcoming_birthdays
        [Record.mk (str "dave") [] (some ⟨2020, 2, 29⟩)] ⟨2023, 6, 10⟩ =
      .exn (.valueError (str "day is out of range for month")) := by
  decide

/-- C8 witness: the amended theorem at a concrete book and date. -/
theorem claim8_witness :
    AddressBook.get_upcoming_birthdays
        [Record.mk (str "erin") [] (some ⟨2016, 2, 29⟩)] ⟨2025, 3, 1⟩ =
      .exn (.valueError (str "day is out of range for month")) :=
  claim8_leap_day [Record.mk (str "erin") [] (some ⟨2016, 2, 29⟩)] ⟨2025, 3, 1⟩
    (by decide) (by decide) (by decide)
    ⟨Record.mk (str "erin") [] (some ⟨2016, 2, 29⟩), List.mem_cons_self _ _,
      ⟨2016, 2, 29⟩, rfl, rfl, rfl⟩

/-! ## C1 -/

theorem get_upcoming_cons {x : Record} {xs : List Record} {today : Date}
    {l : List (Str × Str)}
    (h : AddressBook.get_upcoming_birthdays (x :: xs) today = .ok l) :
    ∃ l', AddressBook.get_upcoming_birthdays xs today = .ok l' ∧
      l = (specEntry x today).toList ++ l' := by
  simp only [AddressBook.get_upcoming_birthdays] at h
  unfold specEntry
  split at h
  · exact ⟨l, h, by simp⟩
  · split at h
    · cases h
    · rename_i occ hocc
      split at h
      · cases h
      · rename_i rest hrest
        split at h
        · rename_i hw
          injection h with hl
          rw [if_pos hw]
          exact ⟨rest, hrest, by simp [hl.symm]⟩
        · rename_i hw
          injection h with hl
          rw [if_neg hw]
          exact ⟨rest, hrest, by simp [hl.symm]⟩

theorem specEntry_name {x : Record} {today : Date} :
    ∀ e ∈ (specEntry x today).toList, e.1 = x.name := by
  intro e he
  unfold specEntry at he
  split at he
  · cases he
  · split at he
    · cases he
    · split at he
      · simp only [Option.toList_some, List.mem_singleton] at he
        rw [he]
      · cases he

theorem get_upcoming_names {book : Book} {today : Date} {l : List (Str × Str)}
    (h : AddressBook.get_upcoming_birthdays book today = .ok l) :
    ∀ e ∈ l, ∃ r ∈ book, r.name = e.1 := by
  induction book generalizing l with
  | nil =>
    rw [show AddressBook.get_upcoming_birthdays [] today = .ok [] from rfl] at h
    injection h with hl
    subst hl
    intro e he
    cases he
  | cons x xs ih =>
    obtain ⟨l', hl', rfl⟩ := get_upcoming_cons h
    intro e he
    rcases List.mem_append.mp he with he1 | he2
    · exact ⟨x, List.mem_cons_self _ _, (specEntry_name e he1).symm⟩
    · obtain ⟨r, hr, hname⟩ := ih hl' e he2
      exact ⟨r, List.mem_cons_of_mem _ hr, hname⟩

theorem get_upcoming_filter {book : Book} {today : Date} {l : List (Str × Str)}
    (hn : (book.map Record.name).Nodup)
    (h : AddressBook.get_upcoming_birthdays book today = .ok l) :
    ∀ r ∈ book, l.filter (fun e => e.1 == r.name) = (specEntry r today).toList := by
  induction book generalizing l with
  | nil =>
    intro r hr
    cases hr
  | cons x xs ih =>
    simp only [List.map_cons, List.nodup_cons] at hn
    obtain ⟨l', hl', rfl⟩ := get_upcoming_cons h
    intro r hr
    rcases List.mem_cons.mp hr with rfl | hmem
    · rw [List.filter_append]
      have h1 : (specEntry r today).toList.filter (fun e => e.1 == r.name) =
          (specEntry r today).toList := by
        rw [List.filter_eq_self]
        intro e he
        simp only [beq_iff_eq]
        exact specEntry_name e he
      have h2 : l'.filter (fun e => e.1 == r.name) = [] := by
        rw [List.filter_eq_nil_iff]
        intro e he hbe
        obtain ⟨r', hr', hname⟩ := get_upcoming_names hl' e he
        exact hn.1 (List.mem_map.mpr ⟨r', hr', hname.trans (beq_iff_eq.mp hbe)⟩)
      rw [h1, h2, List.append_nil]
    · rw [List.filter_append]
      have h1 : (specEntry x today).toList.filter (fun e => e.1 == r.name) = [] := by
        rw [List.filter_eq_nil_iff]
        intro e he hbe
        have hex := specEntry_name e he
        apply hn.1
        rw [show x.name = r.name from hex ▸ beq_iff_eq.mp hbe]
        exact List.mem_map.mpr ⟨r, hmem, rfl⟩
      rw [h1, List.nil_append]
      exact ih hn.2 hl' r hmem

/-- C1 (amended): whenever `get_upcoming_birthdays` completes successfully
(which it does unless a stored Feb 29 birthday meets an unrealizable
target year), its output contains, for each record of the book (with the
book's names unique, as a dict guarantees), exactly the entry prescribed
by the spec's rule — the pair of the record's name and its birthday
occurrence formatted `DD.MM.YYYY`, where the occurrence is this year's
month/day rolled forward one year when strictly before the reference
date, included exactly when it lies 0 to 7 whole days from the reference
date — and contains no entry for any name not in the book. -/
theorem claim1_upcoming_birthdays :
    ∀ (book : Book) (today : Date) (l : List (Str × Str)),
      (book.map Record.name).Nodup →
      AddressBook.get_upcoming_birthdays book today = .ok l →
      (∀ r ∈ book,
        l.filter (fun e => e.1 == r.name) = (specEntry r today).toList) ∧
      (∀ e ∈ l, ∃ r ∈ book, r.name = e.1) :=
  fun _ _ _ hn h => ⟨get_upcoming_filter hn h, get_upcoming_names h⟩

/-- C1 counterexample: with reference date 2023-06-10, a book holding
charlie (birthday 2020-02-29) and bob (birthday 1990-06-15): bob's
occurrence 2023-06-15 is 5 days away, so the claim requires bob to be
included — but the traversal raises on charlie's leap-day birthday and no
output list exists at all. -/
theorem claim1_counterexample :
    (¬ ∃ l s, AddressBook.get_upcoming_birthdays
        [Record.mk (str "charlie") [] (some ⟨2020, 2, 29⟩),
         Record.mk (str "bob") [] (some ⟨1990, 6, 15⟩)] ⟨2023, 6, 10⟩ = .ok l ∧
        (str "bob", s) ∈ l) ∧
    specEntry (Record.mk (str "bob") [] (some ⟨1990, 6, 15⟩)) ⟨2023, 6, 10⟩ =
      some (str "bob", str "15.06.2023") := by
  constructor
  · rintro ⟨l, s, hl, _⟩
    rw [show AddressBook.get_upcoming_birthdays
        [Record.mk (str "charlie") [] (some ⟨2020, 2, 29⟩),
         Record.mk (str "bob") [] (some ⟨1990, 6, 15⟩)] ⟨2023, 6, 10⟩ =
      .exn (.valueError (str "day is out of range for month")) from by decide] at hl
    cases hl
  · decide

/-- C1 witness: the spec's example — reference date 2024-06-10, alice with
birthday 1990-06-15 is included as "15.06.2024", dave with birthday
1990-06-20 is excluded. -/
theorem claim1_witness :
    ([(str "alice", str "15.06.2024")] : List (Str × Str)).filter
        (fun e => e.1 == str "alice") =
      (specEntry (Record.mk (str "alice") [str "0123456789"]
        (some ⟨1990, 6, 15⟩)) ⟨2024, 6, 10⟩).toList ∧
    ([(str "alice", str "15.06.2024")] : List (Str × Str)).filter
        (fun e => e.1 == str "dave") =
      (specEntry (Record.mk (str "dave") [] (some ⟨1990, 6, 20⟩))
        ⟨2024, 6, 10⟩).toList := by
  have h := claim1_upcoming_birthdays
    [Record.mk (str "alice") [str "0123456789"] (some ⟨1990, 6, 15⟩),
     Record.mk (str "dave") [] (some ⟨1990, 6, 20⟩)]
    ⟨2024, 6, 10⟩ [(str "alice", str "15.06.2024")] (by decide) (by decide)
  refine ⟨h.1 (Record.mk (str "alice") [str "0123456789"]
      (some ⟨1990, 6, 15⟩)) ?_,
    h.1 (Record.mk (str "dave") [] (some ⟨1990, 6, 20⟩)) ?_⟩
  · exact List.mem_cons_self _ _
  · exact List.mem_cons_of_mem _ (List.mem_cons_self _ _)

/-! ## C9 -/

theorem phone_init_ok_any {s t : Str} (h : Phone.init s = .ok t) :
    t.length = 10 ∧ t.all pyIsdigitChar = true := by
  obtain ⟨rfl, h2⟩ := phone_init_ok_iff.mp h
  exact h2

theorem splitDay_bounds {s : Str} {d : Nat} {r : Str}
    (h : splitDay s = some (d, r)) : 1 ≤ d ∧ d ≤ 31 := by
  unfold splitDay at h
  split at h
  · cases h
  · rename_i c
    split at h
    · rename_i hc
      injection h with h1
      injection h1 with h2 h3
      subst h2
      have hb := of_decide_eq_true hc
      unfold dval
      omega
    · cases h
  · rename_i c1 c2 cs
    split at h
    · rename_i hcond
      injection h with h1
      injection h1 with h2 h3
      subst h2
      simp only [Bool.or_eq_true, Bool.and_eq_true, beq_iff_eq] at hcond
      rcases hcond with (⟨rfl, hc2⟩ | ⟨hc1, hc2⟩) | ⟨rfl, hc2⟩
      · rcases hc2 with rfl | rfl <;> decide
      · have hb := of_decide_eq_true hc2
        rcases hc1 with rfl | rfl <;>
          · first
            | (rw [show dval '1' = 1 from rfl]; unfold dval; omega)
            | (rw [show dval '2' = 2 from rfl]; unfold dval; omega)
      · rw [show dval '0' = 0 from rfl]
        have hb := of_decide_eq_true hc2
        unfold dval
        omega
    · split at h
      · rename_i hc
        injection h with h1
        injection h1 with h2 h3
        subst h2
        have hb := of_decide_eq_true hc
        unfold dval
        omega
      · cases h

theorem splitMonth_bounds {s : Str} {m : Nat} {r : Str}
    (h : splitMonth s = some (m, r)) : 1 ≤ m ∧ m ≤ 12 := by
  unfold splitMonth at h
  split at h
  · cases h
  · rename_i c
    split at h
    · rename_i hc
      injection h with h1
      injection h1 with h2 h3
      subst h2
      have hb := of_decide_eq_true hc
      unfold dval
      omega
    · cases h
  · rename_i c1 c2 cs
    split at h
    · rename_i hcond
      injection h with h1
      injection h1 with h2 h3
      subst h2
      simp only [Bool.or_eq_true, Bool.and_eq_true, beq_iff_eq] at hcond
      rcases hcond with ⟨rfl, hc2⟩ | ⟨rfl, hc2⟩
      · rcases hc2 with (rfl | rfl) | rfl <;> decide
      · rw [show dval '0' = 0 from rfl]
        have hb := of_decide_eq_true hc2
        unfold dval
        omega
    · split at h
      · rename_i hc
        injection h with h1
        injection h1 with h2 h3
        subst h2
        have hb := of_decide_eq_true hc
        unfold dval
        omega
      · cases h

theorem parseYear4_bounds {s : Str} {y : Nat} {r : Str}
    (h : parseYear4 s = some (y, r)) : y ≤ 9999 := by
  unfold parseYear4 at h
  split at h
  · rename_i c1 c2 c3 c4 rest
    split at h
    · rename_i hc
      simp only [Bool.and_eq_true] at hc
      obtain ⟨⟨⟨hc1, hc2⟩, hc3⟩, hc4⟩ := hc
      injection h with h1
      injection h1 with h2 h3
      subst h2
      have hb1 := of_decide_eq_true hc1
      have hb2 := of_decide_eq_true hc2
      have hb3 := of_decide_eq_true hc3
      have hb4 := of_decide_eq_true hc4
      unfold dval
      omega
    · cases h
  · cases h

theorem parseDMY_bounds {s : Str} {d m y : Nat} {rest : Str}
    (h : parseDMY s = some (d, m, y, rest)) :
    1 ≤ d ∧ d ≤ 31 ∧ 1 ≤ m ∧ m ≤ 12 ∧ y ≤ 9999 := by
  unfold parseDMY at h
  split at h
  · cases h
  · rename_i d0 r1 hsd
    split at h
    · split at h
      · cases h
      · rename_i m0 r3 hsm
        split at h
        · split at h
          · cases h
          · rename_i y0 rest0 hsy
            injection h with h1
            injection h1 with h2 h3
            injection h3 with h4 h5
            injection h5 with h6 h7
            subst h2; subst h4; subst h6
            obtain ⟨hd1, hd2⟩ := splitDay_bounds hsd
            obtain ⟨hm1, hm2⟩ := splitMonth_bounds hsm
            have hy := parseYear4_bounds hsy
            exact ⟨hd1, hd2, hm1, hm2, hy⟩
        · cases h
    · cases h

theorem birthday_init_ok {s : Str} {today b : Date}
    (h : Birthday.init s today = .ok b) :
    validDate b = true ∧ dateLeB b today = true := by
  unfold Birthday.init at h
  split at h
  · cases h
  · rename_i d m y rest hp
    split at h
    · cases h
    · split at h
      · cases h
      · rename_i hy0
        split at h
        · cases h
        · rename_i hday
          split at h
          · cases h
          · rename_i hfut
            injection h with hb
            subst hb
            obtain ⟨hd1, hd2, hm1, hm2, hy⟩ := parseDMY_bounds hp
            have hy1 : y ≠ 0 := by
              intro hc
              exact hy0 (by rw [hc]; rfl)
            constructor
            · rw [validDate]
              refine decide_eq_true ?_
              dsimp only
              exact ⟨by omega, by omega, by omega, by omega, by omega, by omega⟩
            · rcases hb : dateLtB today ⟨y, m, d⟩ with _ | _
              · rw [dateLeB, hb]
                rfl
              · exact absurd hb hfut

theorem updateFirst_mem {book : Book} {name : Str} {f : Record → Record}
    {r : Record} (h : r ∈ updateFirst book name f) :
    r ∈ book ∨ ∃ x ∈ book, r = f x := by
  induction book with
  | nil => cases h
  | cons x xs ih =>
    unfold updateFirst at h
    split at h
    · rcases List.mem_cons.mp h with rfl | hm
      · exact Or.inr ⟨x, List.mem_cons_self _ _, rfl⟩
      · exact Or.inl (List.mem_cons_of_mem _ hm)
    · rcases List.mem_cons.mp h with rfl | hm
      · exact Or.inl (List.mem_cons_self _ _)
      · rcases ih hm with h1 | ⟨z, hz, he⟩
        · exact Or.inl (List.mem_cons_of_mem _ h1)
        · exact Or.inr ⟨z, List.mem_cons_of_mem _ hz, he⟩

theorem editPhoneList_mem {ps : List Str} {old_phone new_phone : Str}
    {qs : List Str} (h : editPhoneList ps old_phone new_phone = .ok qs) :
    ∀ q ∈ qs, q ∈ ps ∨ Phone.init new_phone = .ok q := by
  induction ps generalizing qs with
  | nil => cases h
  | cons p ps ih =>
    unfold editPhoneList at h
    split at h
    · split at h
      · rename_i np hn
        injection h with h1
        subst h1
        intro q hq
        rcases List.mem_cons.mp hq with rfl | hm
        · exact Or.inr hn
        · exact Or.inl (List.mem_cons_of_mem _ hm)
      · cases h
    · split at h
      · rename_i qs' hq'
        injection h with h1
        subst h1
        intro q hq
        rcases List.mem_cons.mp hq with rfl | hm
        · exact Or.inl (List.mem_cons_self _ _)
        · rcases ih hq' q hm with h1 | h2
          · exact Or.inl (List.mem_cons_of_mem _ h1)
          · exact Or.inr h2
      · cases h

theorem bookInv_append_phone {ds : List Date} {book : Book} {name p : Str}
    (hinv : BookInv ds book)
    (hp : p.length = 10 ∧ p.all pyIsdigitChar = true) :
    BookInv ds
      (updateFirst book name (fun r => { r with phones := r.phones ++ [p] })) := by
  intro r hr
  rcases updateFirst_mem hr with h1 | ⟨x, hx, rfl⟩
  · exact hinv r h1
  · refine ⟨?_, fun b hb => (hinv x hx).2 b hb⟩
    intro q hq
    rcases List.mem_append.mp hq with h2 | h2
    · exact (hinv x hx).1 q h2
    · rw [List.mem_singleton] at h2
      subst h2
      exact hp

theorem bookInv_append_empty {ds : List Date} {book : Book} {name : Str}
    (hinv : BookInv ds book) :
    BookInv ds (book ++ [Record.mk name [] none]) := by
  intro r hr
  rcases List.mem_append.mp hr with h1 | h1
  · exact hinv r h1
  · rw [List.mem_singleton] at h1
    subst h1
    exact ⟨fun p hp => absurd hp (List.not_mem_nil p), fun b hb => by cases hb⟩

theorem bookInv_set_record {ds : List Date} {book : Book} {name : Str}
    {r' : Record} (hinv : BookInv ds book)
    (hr' : (∀ p ∈ r'.phones, p.length = 10 ∧ p.all pyIsdigitChar = true) ∧
      (∀ b, r'.birthday = some b →
        validDate b = true ∧ ∃ t ∈ ds, dateLeB b t = true)) :
    BookInv ds (updateFirst book name (fun _ => r')) := by
  intro r hr
  rcases updateFirst_mem hr with h1 | ⟨x, hx, rfl⟩
  · exact hinv r h1
  · exact hr'

theorem add_record_empty_inv {ds : List Date} {book : Book} {name : Str}
    (hinv : BookInv ds book) :
    BookInv ds (AddressBook.add_record book (Record.mk name [] none)) := by
  unfold AddressBook.add_record
  split
  · exact bookInv_set_record hinv
      ⟨fun p hp => absurd hp (List.not_mem_nil p), fun b hb => by cases hb⟩
  · exact bookInv_append_empty hinv

theorem add_contact_inv {ds : List Date} {book : Book}
    (hinv : BookInv ds book) (args : List Str) :
    BookInv ds (add_contact args book).2 := by
  unfold add_contact
  split
  · exact hinv
  · dsimp only
    split
    · split
      · exact hinv
      · split
        · rename_i p hp
          exact bookInv_append_phone hinv (phone_init_ok_any hp)
        · exact hinv
    · split
      · exact add_record_empty_inv hinv
      · split
        · rename_i p hp
          exact bookInv_append_phone (add_record_empty_inv hinv)
            (phone_init_ok_any hp)
        · exact add_record_empty_inv hinv

theorem change_contact_inv {ds : List Date} {book : Book}
    (hinv : BookInv ds book) (args : List Str) :
    BookInv ds (change_contact args book).2 := by
  unfold change_contact
  split
  · exact hinv
  · split
    · exact hinv
    · dsimp only
      split
      · rename_i record hfind
        have hmem : record ∈ book := List.mem_of_find?_eq_some hfind
        split
        · rename_i r' hr'
          unfold Record.edit_phone at hr'
          split at hr'
          · rename_i qs hqs
            injection hr' with he
            subst he
            refine bookInv_set_record hinv ⟨?_, fun b hb => (hinv record hmem).2 b hb⟩
            intro q hq
            rcases editPhoneList_mem hqs q hq with h1 | h2
            · exact (hinv record hmem).1 q h1
            · exact phone_init_ok_any h2
          · cases hr'
        · exact hinv
      · exact hinv

theorem add_birthday_inv {ds : List Date} {book : Book}
    (hinv : BookInv ds book) (args : List Str) {t : Date} (ht : t ∈ ds) :
    BookInv ds (add_birthday args book t).2 := by
  unfold add_birthday
  split
  · exact hinv
  · dsimp only
    split
    · rename_i record hfind
      have hmem : record ∈ book := List.mem_of_find?_eq_some hfind
      split
      · rename_i r' hr'
        unfold Record.add_birthday at hr'
        split at hr'
        · rename_i b hb
          injection hr' with he
          subst he
          refine bookInv_set_record hinv
            ⟨fun p hp => (hinv record hmem).1 p hp, ?_⟩
          intro b' hb'
          injection hb' with hbb
          subst hbb
          obtain ⟨hv, hle⟩ := birthday_init_ok hb
          exact ⟨hv, t, ht, hle⟩
        · cases hr'
      · exact hinv
    · exact hinv

theorem bookInv_mono {ds ds' : List Date} {book : Book}
    (hsub : ∀ t ∈ ds, t ∈ ds') (hinv : BookInv ds book) : BookInv ds' book := by
  intro r hr
  refine ⟨(hinv r hr).1, fun b hb => ?_⟩
  obtain ⟨hv, t, ht, hle⟩ := (hinv r hr).2 b hb
  exact ⟨hv, t, hsub t ht, hle⟩

theorem dispatch_inv {ds : List Date} {book : Book}
    (hinv : BookInv ds book) (c : Command) (args : List Str) (t : Date) :
    BookInv (ds ++ [t]) ((dispatch c args book t).2) := by
  have hinv' : BookInv (ds ++ [t]) book :=
    bookInv_mono (fun x hx => List.mem_append_left _ hx) hinv
  have ht : t ∈ ds ++ [t] :=
    List.mem_append_right _ (List.mem_singleton.mpr rfl)
  cases c with
  | addCmd =>
    rw [show (dispatch Command.addCmd args book t).2 =
      (add_contact args book).2 from input_error_snd _]
    exact add_contact_inv hinv' args
  | changeCmd =>
    rw [show (dispatch Command.changeCmd args book t).2 =
      (change_contact args book).2 from input_error_snd _]
    exact change_contact_inv hinv' args
  | addBirthdayCmd =>
    rw [show (dispatch Command.addBirthdayCmd args book t).2 =
      (add_birthday args book t).2 from input_error_snd _]
    exact add_birthday_inv hinv' args ht
  | phoneCmd =>
    rw [show (dispatch Command.phoneCmd args book t).2 = book from
      (input_error_snd _).trans (show_phone_frame args book)]
    exact hinv'
  | allCmd =>
    rw [show (dispatch Command.allCmd args book t).2 = book from
      (input_error_snd _).trans (show_all_frame book)]
    exact hinv'
  | showBirthdayCmd =>
    rw [show (dispatch Command.showBirthdayCmd args book t).2 = book from
      (input_error_snd _).trans (show_birthday_frame args book)]
    exact hinv'
  | birthdaysCmd =>
    rw [show (dispatch Command.birthdaysCmd args book t).2 = book from
      (input_error_snd _).trans (birthdays_frame args book t)]
    exact hinv'

theorem run_inv :
    ∀ (ops : List (Command × List Str × Date)) (book : Book) (ds : List Date),
      BookInv ds book →
      BookInv (ds ++ ops.map (fun o => o.2.2)) (run ops book) := by
  intro ops
  induction ops with
  | nil =>
    intro book ds h
    simpa using h
  | cons op ops ih =>
    intro book ds h
    rcases op with ⟨c, args, t⟩
    simp only [run, List.map_cons]
    have h1 := dispatch_inv h c args t
    have h2 := ih _ (ds ++ [t]) h1
    simpa [List.append_assoc] using h2

/-- C9: in every book state reachable by running any command sequence from
the empty book, every stored phone satisfies the validation rule of Phone
construction (length 10, all characters Python digits) and every stored
birthday is a valid calendar date not after the `date.today()` value of
one of the executed commands — no operation stores a value that failed
validation. -/
theorem claim9_invariants :
    ∀ (ops : List (Command × List Str × Date)) (r : Record),
      r ∈ run ops [] →
      (∀ p ∈ r.phones, p.length = 10 ∧ p.all pyIsdigitChar = true) ∧
      (∀ b, r.birthday = some b →
        validDate b = true ∧
          ∃ t ∈ ops.map (fun o => o.2.2), dateLeB b t = true) := by
  intro ops r hr
  have h := run_inv ops [] []
    (fun r hr => absurd hr (List.not_mem_nil r))
  rw [List.nil_append] at h
  exact h r hr

/-- C9 witness: after `add alice 0123456789` and
`add-birthday alice 15.06.1990` (both on 2024-06-10), the stored phone and
birthday satisfy the invariant. -/
theorem claim9_witness :
    ((str "0123456789").length = 10 ∧
      (str "0123456789").all pyIsdigitChar = true) ∧
    (validDate ⟨1990, 6, 15⟩ = true ∧
      ∃ t ∈ [(⟨2024, 6, 10⟩ : Date), ⟨2024, 6, 10⟩],
        dateLeB ⟨1990, 6, 15⟩ t = true) := by
  have h := claim9_invariants
    [(.addCmd, [str "alice", str "0123456789"], ⟨2024, 6, 10⟩),
     (.addBirthdayCmd, [str "alice", str "15.06.1990"], ⟨2024, 6, 10⟩)]
    (Record.mk (str "alice") [str "0123456789"] (some ⟨1990, 6, 15⟩))
    (by decide)
  exact ⟨h.1 (str "0123456789") (by decide), h.2 ⟨1990, 6, 15⟩ rfl⟩
